import Mathlib

/-!
Verification development for the mod-content registry, patch engine,
inheritance resolver and reference/conflict graph of the rimworld-mcp-server
repository.  The TypeScript sources are shallowly embedded: content trees
(the values produced by the XML parser with `preserveOrder:false` and
`parseTagValue:false`) become the inductive `JVal`; the in-place mutations of
the engine become pure state-passing functions; JavaScript `Map`s become
insertion-ordered association lists; exceptions raised by a mutation become an
`Option String` error channel.
-/

/-- A parsed content tree: a string scalar, an ordered sequence, or a
string-keyed node whose fields keep insertion order (JavaScript objects). -/
inductive JVal : Type where
  | str (s : String)
  | arr (elems : List JVal)
  | obj (fields : List (String × JVal))

/-- The strict equality test `v === 'Inherit.Remove'`: true exactly for the
scalar holding the deletion sentinel. -/
def isInheritRemove : JVal → Bool
  | JVal.str s => s = "Inherit.Remove"
  | _ => false

/-- JavaScript truthiness for the content universe: the empty string is the
only falsy content value (arrays and objects are always truthy). -/
def jsTruthy : JVal → Bool
  | JVal.str s => !(s = "")
  | JVal.arr _ => true
  | JVal.obj _ => true

/-- Truthiness of a possibly-`undefined`/`null` value (`none` models both). -/
def optTruthy : Option JVal → Bool
  | none => false
  | some v => jsTruthy v

/-- Read an own property of an object (`o[k]`); first matching key wins, as
JavaScript objects have unique keys. -/
def objGet (fields : List (String × JVal)) (k : String) : Option JVal :=
  match fields with
  | [] => none
  | (k', v) :: rest => if k' = k then some v else objGet rest k

/-- Property assignment `o[k] = v`: an existing key keeps its position, a new
key is appended, matching JavaScript property-order semantics. -/
def objSet (fields : List (String × JVal)) (k : String) (v : JVal) :
    List (String × JVal) :=
  match fields with
  | [] => [(k, v)]
  | (k', v') :: rest =>
    if k' = k then (k, v) :: rest else (k', v') :: objSet rest k v

/-- Property deletion `delete o[k]` (keys are unique, so removing the first
occurrence is removing the key). -/
def objDelete (fields : List (String × JVal)) (k : String) :
    List (String × JVal) :=
  match fields with
  | [] => []
  | (k', v') :: rest =>
    if k' = k then rest else (k', v') :: objDelete rest k

/-- The deletion sentinel honoured by the inheritance merge. -/
def inheritRemove : String := "Inherit.Remove"

/-- `merged[key] || {}` — the value if truthy, otherwise a fresh empty node. -/
def jsOrEmptyObj : Option JVal → JVal
  | none => JVal.obj []
  | some v => if jsTruthy v then v else JVal.obj []

/-- ReferenceAnalyzer.mergeWithParent char loop: iterating `for key in child`
over a string child enumerates its single-character values; such a value is
neither the deletion sentinel nor an object, so only the overwrite branch of
the key loop is reachable, encoded directly. -/
def mergeStrEntries (m : List (String × JVal)) (i : Nat) (cs : List Char) :
    List (String × JVal) :=
  match cs with
  | [] => m
  | ch :: rest => mergeStrEntries (objSet m (toString i) (JVal.str (String.mk [ch]))) (i + 1) rest

mutual

/-- ReferenceAnalyzer.mergeWithParent (part_002 lines 204-242).
`child = none` models the `undefined`/`null` argument. Returning `none`
models the `undefined` result produced for the deletion sentinel. -/
def mergeWithParent (parent : JVal) (child : Option JVal) : Option JVal :=
  match child with
  | none => some parent
  | some c =>
    if isInheritRemove c then none
    else
      match parent, c with
      | JVal.arr _, JVal.arr ys => some (JVal.arr ys)
      | JVal.arr xs, _ => some (JVal.arr xs)
      | JVal.str _, _ => some c
      | JVal.obj pfs, JVal.obj cfs => some (JVal.obj (mergeEntries pfs cfs))
      | JVal.obj pfs, JVal.arr ys => some (JVal.obj (mergeArrEntries pfs 0 ys))
      | JVal.obj pfs, JVal.str s => some (JVal.obj (mergeStrEntries pfs 0 s.toList))
termination_by sizeOf child

/-- The `for key in child` loop of mergeWithParent when both sides are nodes:
start from a copy of the parent's fields, then delete sentinel keys,
recursively merge node-valued keys (against `merged[key] || {}`), and
overwrite everything else.  The recursive merge of a non-sentinel node child
always yields a value, so the `getD` default is never exercised. -/
def mergeEntries (m : List (String × JVal)) (cs : List (String × JVal)) :
    List (String × JVal) :=
  match cs with
  | [] => m
  | (k, v) :: rest =>
    if isInheritRemove v then mergeEntries (objDelete m k) rest
    else
      match v with
      | JVal.obj vfs =>
        mergeEntries
          (objSet m k ((mergeWithParent (jsOrEmptyObj (objGet m k)) (some (JVal.obj vfs))).getD (JVal.obj []))) rest
      | _ => mergeEntries (objSet m k v) rest
termination_by sizeOf cs + 1

/-- The same key loop when the child is an ordered sequence: `for key in child`
enumerates the indices as string keys with the elements as values (a sequence
element that is itself a sequence falls into the overwrite branch, mirroring
the `!Array.isArray` guard). -/
def mergeArrEntries (m : List (String × JVal)) (i : Nat) (cs : List JVal) :
    List (String × JVal) :=
  match cs with
  | [] => m
  | v :: rest =>
    if isInheritRemove v then mergeArrEntries (objDelete m (toString i)) (i + 1) rest
    else
      match v with
      | JVal.obj vfs =>
        mergeArrEntries
          (objSet m (toString i)
            ((mergeWithParent (jsOrEmptyObj (objGet m (toString i))) (some (JVal.obj vfs))).getD (JVal.obj [])))
          (i + 1) rest
      | _ => mergeArrEntries (objSet m (toString i) v) (i + 1) rest
termination_by sizeOf cs + 1

end

/-! ## Source model (types.ts) -/

/-- ModInfo (part_002 lines 1-14).  Only the fields read by the embedded
operations are kept: the identity `packageId`, the display `name` and the
priority rank `loadOrder`; path/author/version metadata and the dependency
lists are not consulted by any modeled function. -/
structure ModInfo where
  packageId : String
  name : String
  loadOrder : Nat
  deriving DecidableEq

/-- DefReference (part_002 lines 16-24); the reference kind is kept as its
string tag. -/
structure DefReference where
  fromDef : String
  toDef : String
  referenceType : String
  path : String
  deriving DecidableEq

/-- The operation kinds of PatchOperation (part_002 lines 30-32). -/
inductive OpKind : Type where
  | Add | Remove | Replace | AddModExtension | SetName
  | Sequence | Test | Conditional | PatchOperationFindMod
  | PatchOperationReplace | PatchOperationAdd | PatchOperationRemove
  deriving DecidableEq

/-- The string the source obtains by interpolating the operation field. -/
def opName : OpKind → String
  | OpKind.Add => "Add"
  | OpKind.Remove => "Remove"
  | OpKind.Replace => "Replace"
  | OpKind.AddModExtension => "AddModExtension"
  | OpKind.SetName => "SetName"
  | OpKind.Sequence => "Sequence"
  | OpKind.Test => "Test"
  | OpKind.Conditional => "Conditional"
  | OpKind.PatchOperationFindMod => "PatchOperationFindMod"
  | OpKind.PatchOperationReplace => "PatchOperationReplace"
  | OpKind.PatchOperationAdd => "PatchOperationAdd"
  | OpKind.PatchOperationRemove => "PatchOperationRemove"

/-- The applicability conditions of a patch operation. -/
structure PatchConditions where
  modLoaded : Option (List String) := none
  modNotLoaded : Option (List String) := none

/-- PatchOperation (part_002 lines 26-44).  `value` is optional in the source
(an absent payload would mutate with `undefined`); the model requires a
payload, and no claim concerns payload-less operations.  `appliedTo` is the
Set of names of definitions the operation was applied to, in insertion
order. -/
structure PatchOperation where
  id : String
  mod : ModInfo
  filePath : String
  operation : OpKind
  xpath : String
  value : JVal
  success : Option Bool := none
  error : Option String := none
  targetDef : Option String := none
  order : Nat
  conditions : Option PatchConditions := none
  appliedTo : List String := []

/-- The conflict kinds of DefConflict (part_002 lines 47-48). -/
inductive ConflictType : Type where
  | override | patch_collision | missing_dependency
  | circular_dependency | incompatible_patch | xpath_conflict
  deriving DecidableEq

/-- Conflict severities. -/
inductive Severity : Type where
  | error | warning | info
  deriving DecidableEq

/-- DefConflict (part_002 lines 46-55). -/
structure DefConflict where
  ctype : ConflictType
  severity : Severity
  defName : Option String := none
  xpath : Option String := none
  mods : List ModInfo
  description : String
  resolution : Option String := none

/-- RimWorldDef (part_002 lines 57-70).  The patch history stores the ids of
the operations that touched the definition (the source stores mutable
references to the operation objects; their identity is the id). -/
structure RWDef where
  defName : String
  type : String
  parent : Option String := none
  abstract : Bool := false
  content : JVal
  originalContent : Option JVal := none
  filePath : String := ""
  mod : ModInfo
  outgoingRefs : List DefReference := []
  incomingRefs : List DefReference := []
  patchHistory : List String := []
  conflicts : List DefConflict := []

/-- ServerData (part_002 lines 72-83), restricted to the fields the embedded
operations read or write (`referenceGraph`, `patches` and `loadOrder` are
only touched by functions outside the modeled core). -/
structure ServerData where
  defs : List (String × RWDef) := []
  defsByType : List (String × List RWDef) := []
  defsByMod : List (String × List RWDef) := []
  mods : List (String × ModInfo) := []
  globalPatches : List PatchOperation := []
  conflicts : List DefConflict := []
  abstractDefs : List (String × RWDef) := []

/-- Map.get on an insertion-ordered association list. -/
def mapGet {α : Type} (m : List (String × α)) (k : String) : Option α :=
  match m with
  | [] => none
  | (k', v) :: rest => if k' = k then some v else mapGet rest k

/-- Map.set: overwrite in place when the key exists, append otherwise. -/
def mapSet {α : Type} (m : List (String × α)) (k : String) (v : α) :
    List (String × α) :=
  match m with
  | [] => [(k, v)]
  | (k', v') :: rest =>
    if k' = k then (k, v) :: rest else (k', v') :: mapSet rest k v

/-- Set.add on a string set kept in insertion order. -/
def setAdd (l : List String) (x : String) : List String :=
  if x ∈ l then l else l ++ [x]

/-- The identity-relevant projection of a definition record (everything except
the secondary bookkeeping lists), used to compare registry holders. -/
def defKey (d : RWDef) : String × String × Option String × Bool × JVal × String :=
  (d.defName, d.type, d.parent, d.abstract, d.content, d.mod.packageId)

/-- A ServerData with every collection empty. -/
def emptyData : ServerData := {}

/-! ## Definition registry (DefParser.processDefsFile, lines 112-154; the
identical inlined copy lives in CombinedScanner.processDefsFile,
part_001 lines 161-204) -/

/-- splice of the first entry with the given defName out of a type bucket
(`findIndex` + `splice(index, 1)`). -/
def removeFirstByName (l : List RWDef) (n : String) : List RWDef :=
  match l with
  | [] => []
  | d :: rest => if d.defName = n then rest else d :: removeFirstByName rest n

/-- The override conflict pushed when a same-named definition from another
source is already registered (DefParser.ts lines 114-123). -/
def overrideConflictOf (ex rimDef : RWDef) : DefConflict :=
  { ctype := ConflictType.override
    severity := Severity.warning
    defName := some rimDef.defName
    mods := [ex.mod, rimDef.mod]
    description := rimDef.mod.name ++ " overrides " ++ rimDef.defName ++ " from " ++ ex.mod.name
    resolution := some (if rimDef.mod.loadOrder > ex.mod.loadOrder then
        rimDef.mod.name ++ " wins due to load order"
      else
        ex.mod.name ++ " wins due to load order") }

/-- Registration of one parsed definition record: override-conflict
recording, the abstract lookup, and the conditional installation as current
holder with the secondary-index updates. -/
def registerDef (data : ServerData) (rimDef : RWDef) : ServerData :=
  let existing := mapGet data.defs rimDef.defName
  let newConflicts : List DefConflict :=
    match existing with
    | some ex =>
      if ex.mod.packageId ≠ rimDef.mod.packageId then [overrideConflictOf ex rimDef]
      else []
    | none => []
  let rimDef' := { rimDef with conflicts := rimDef.conflicts ++ newConflicts }
  let data1 := { data with conflicts := data.conflicts ++ newConflicts }
  let data2 :=
    if rimDef.abstract then
      { data1 with abstractDefs := mapSet data1.abstractDefs rimDef.defName rimDef' }
    else data1
  let install : Bool :=
    match existing with
    | none => true
    | some ex => ex.mod.loadOrder < rimDef.mod.loadOrder
  if install then
    let data3 := { data2 with defs := mapSet data2.defs rimDef.defName rimDef' }
    let bucket := (mapGet data3.defsByType rimDef.type).getD []
    let bucket1 :=
      match existing with
      | some _ => removeFirstByName bucket rimDef.defName
      | none => bucket
    let data4 := { data3 with defsByType := mapSet data3.defsByType rimDef.type (bucket1 ++ [rimDef']) }
    let mbucket := (mapGet data4.defsByMod rimDef.mod.packageId).getD []
    { data4 with defsByMod := mapSet data4.defsByMod rimDef.mod.packageId (mbucket ++ [rimDef']) }
  else data2

/-- ToolHandlers.handleGetDef name resolution (ToolHandlers.ts line 230):
the current concrete definition, falling back to the abstract lookup. -/
def lookupDef (data : ServerData) (n : String) : Option RWDef :=
  match mapGet data.defs n with
  | some d => some d
  | none => mapGet data.abstractDefs n

/-! ## Patch engine (PatchManager.ts) -/

/-- Leading-match test on character lists. -/
def charsStartWith (s p : List Char) : Bool :=
  match p, s with
  | [], _ => true
  | _ :: _, [] => false
  | a :: ps, b :: ss => a = b && charsStartWith ss ps

/-- Occurrence test on character lists (the pattern may match at any
position, the end included). -/
def charsInclude (s p : List Char) : Bool :=
  charsStartWith s p ||
    match s with
    | [] => false
    | _ :: rest => charsInclude rest p

/-- Substring test (String.prototype.includes). -/
def strContains (s pat : String) : Bool :=
  charsInclude s.toList pat.toList

/-- The split `path.split('.')` (an empty string yields one empty part). -/
def splitOnDot (l : List Char) : List (List Char) :=
  match l with
  | [] => [[]]
  | c :: rest =>
    let r := splitOnDot rest
    if c = '.' then [] :: r
    else
      match r with
      | [] => [[c]]
      | g :: gs => (c :: g) :: gs

/-- `path.split('.')` lifted to strings. -/
def jsSplitDot (s : String) : List String :=
  (splitOnDot s.toList).map (fun cs => String.mk cs)

/-- `lastPart.endsWith('[]')`. -/
def endsWithBrackets (s : String) : Bool :=
  match s.toList.reverse with
  | ']' :: '[' :: _ => true
  | _ => false

/-- `lastPart.slice(0, -2)`, the key with the trailing marker removed. -/
def dropLast2 (s : String) : String :=
  String.mk s.toList.dropLast.dropLast

/-- `cycle.join(' -> ')` and friends. -/
def joinWith (sep : String) : List String → String
  | [] => ""
  | [x] => x
  | x :: rest => x ++ sep ++ joinWith sep rest

/-- PatchManager.matchesXPath (lines 261-266): the heuristic target matcher.
The two quoted forms are written with \x22 and \x27 escapes. -/
def matchesXPath (d : RWDef) (xpath : String) : Bool :=
  strContains xpath d.type ||
  strContains xpath d.defName ||
  strContains xpath ("defName=\x22" ++ d.defName ++ "\x22") ||
  strContains xpath ("defName=\x27" ++ d.defName ++ "\x27")

/-- Scan of `.*?\]` inside a bracket group: the regex dot does not cross a
line terminator, so a close bracket is only found before the next newline
(carriage return included); returns the remainder after the group. -/
def scanBracketClose (l : List Char) : Option (List Char) :=
  match l with
  | [] => none
  | c :: rest =>
    if c = ']' then some rest
    else if c = '\n' then none
    else if c = '\r' then none
    else scanBracketClose rest

theorem scanBracketClose_length {l r : List Char}
    (h : scanBracketClose l = some r) : r.length < l.length := by
  induction l with
  | nil => simp [scanBracketClose] at h
  | cons c rest ih =>
    simp only [scanBracketClose] at h
    split at h
    · injection h with h1; subst h1; simp
    · split at h
      · exact absurd h (by simp)
      · split at h
        · exact absurd h (by simp)
        · exact Nat.lt_trans (ih h) (by simp only [List.length_cons]; omega)

/-- Global application of `replace(/\[.*?\]/g, '')`, structured over an
explicit budget so that it reduces definitionally: each position is tried
left to right; at an open bracket with a matching close on the same line the
non-greedy group is removed, otherwise the character is kept.  Every step
consumes at least one character, so a budget of the input length is always
sufficient (`removeBracketsAux_adequate`). -/
def removeBracketsAux : Nat → List Char → List Char
  | 0, l => l
  | _ + 1, [] => []
  | fuel + 1, c :: rest =>
    if c = '[' then
      match scanBracketClose rest with
      | some rest' => removeBracketsAux fuel rest'
      | none => '[' :: removeBracketsAux fuel rest
    else c :: removeBracketsAux fuel rest

/-- The bracket-group removal pass. -/
def removeBrackets (l : List Char) : List Char :=
  removeBracketsAux l.length l

theorem removeBracketsAux_eq :
    ∀ fuel fuel' l, List.length l ≤ fuel → List.length l ≤ fuel' →
      removeBracketsAux fuel l = removeBracketsAux fuel' l := by
  intro fuel
  induction fuel with
  | zero =>
    intro fuel' l h _
    have hl : l = [] := List.length_eq_zero.mp (Nat.le_zero.mp h)
    subst hl; cases fuel' <;> rfl
  | succ n ih =>
    intro fuel' l h h'
    cases fuel' with
    | zero =>
      have hl : l = [] := List.length_eq_zero.mp (Nat.le_zero.mp h')
      subst hl; rfl
    | succ n' =>
      cases l with
      | nil => rfl
      | cons c rest =>
        simp only [List.length_cons] at h h'
        simp only [removeBracketsAux]
        by_cases hc : c = '['
        · rw [if_pos hc, if_pos hc]
          cases hscan : scanBracketClose rest with
          | some rest' =>
            have hlen := scanBracketClose_length hscan
            exact ih n' rest' (by omega) (by omega)
          | none =>
            rw [ih n' rest (by omega) (by omega)]
        · rw [if_neg hc, if_neg hc]
          rw [ih n' rest (by omega) (by omega)]

/-- Any budget of at least the input length computes the pass. -/
theorem removeBracketsAux_adequate (fuel : Nat) (l : List Char)
    (h : List.length l ≤ fuel) : removeBracketsAux fuel l = removeBrackets l :=
  removeBracketsAux_eq fuel l.length l h (Nat.le_refl _)

/-- `replace(/^\/+/, '')`. -/
def stripLeadingSlashes (l : List Char) : List Char :=
  match l with
  | '/' :: rest => stripLeadingSlashes rest
  | l => l

/-- Whitespace as matched by the regex \s (the common code points). -/
def jsWhitespace (c : Char) : Bool :=
  c = ' ' || c = '\t' || c = '\n' || c = '\r' || c = '\x0b' || c = '\x0c'

/-- PatchManager.xpathToPath (lines 326-332): strip leading slashes, delete
every bracket group, turn slashes into dots and remove whitespace. -/
def xpathToPath (xpath : String) : String :=
  let cs := stripLeadingSlashes xpath.toList
  let cs := removeBrackets cs
  let cs := cs.map (fun c => if c = '/' then '.' else c)
  let cs := cs.filter (fun c => !jsWhitespace c)
  String.mk cs

/-- Property assignment `current[k] = v` as a step of a mutation.  Assigning a
property of a string primitive throws a TypeError (the sources are compiled
as strict-mode ES modules).  JavaScript would allow an expando property on an
ordered sequence; the model's content universe cannot represent that, so this
corner is flagged with a distinct error and no claim exercises it. -/
def writeProp (current : JVal) (k : String) (v : JVal) : JVal × Option String :=
  match current with
  | JVal.obj fs => (JVal.obj (objSet fs k v), none)
  | JVal.str s => (JVal.str s, some "Cannot create property on string")
  | JVal.arr xs => (JVal.arr xs, some "unmodeled: expando property on ordered sequence")

/-- The trailing `[]` branch of PatchManager.addToContent (lines 281-292):
ensure `current[arrayName]` and its `li` list exist, wrap a non-sequence
`li`, then push the value.  Partial effects before a raised error are kept,
matching in-place mutation. -/
def addTrailingArr (current : JVal) (arrayName : String) (value : JVal) :
    JVal × Option String :=
  match current with
  | JVal.obj fs =>
    let slot :=
      match objGet fs arrayName with
      | some v => if jsTruthy v then v else JVal.obj [("li", JVal.arr [])]
      | none => JVal.obj [("li", JVal.arr [])]
    match slot with
    | JVal.obj nfs =>
      let li :=
        match objGet nfs "li" with
        | some v => if jsTruthy v then v else JVal.arr []
        | none => JVal.arr []
      let xs := match li with | JVal.arr xs => xs | other => [other]
      (JVal.obj (objSet fs arrayName (JVal.obj (objSet nfs "li" (JVal.arr (xs ++ [value]))))), none)
    | JVal.str s =>
      (JVal.obj (objSet fs arrayName (JVal.str s)), some "Cannot create property on string")
    | JVal.arr xs =>
      (JVal.obj (objSet fs arrayName (JVal.arr xs)), some "unmodeled: expando property on ordered sequence")
  | JVal.str s => (JVal.str s, some "Cannot create property on string")
  | JVal.arr xs => (JVal.arr xs, some "unmodeled: expando property on ordered sequence")

/-- The descend-and-create walk shared by addToContent and replaceInContent:
`if (!current[k]) current[k] = {}; current = current[k]`, with the partial
mutation written back even when a deeper step raises. -/
def addGo (current : JVal) (parts : List String) (value : JVal) :
    JVal × Option String :=
  match parts with
  | [] => (current, none)
  | [last] =>
    if endsWithBrackets last then addTrailingArr current (dropLast2 last) value
    else writeProp current last value
  | k :: rest =>
    match current with
    | JVal.obj fs =>
      let child :=
        match objGet fs k with
        | some v => if jsTruthy v then v else JVal.obj []
        | none => JVal.obj []
      let r := addGo child rest value
      (JVal.obj (objSet fs k r.1), r.2)
    | JVal.str s => (JVal.str s, some "Cannot create property on string")
    | JVal.arr xs => (JVal.arr xs, some "unmodeled: expando property on ordered sequence")

/-- PatchManager.addToContent (lines 268-296). -/
def addToContent (content : JVal) (xpath : String) (value : JVal) :
    JVal × Option String :=
  addGo content (jsSplitDot (xpathToPath xpath)) value

/-- The walk of PatchManager.removeFromContent: a missing or falsy step
returns silently, and the final `delete` on a non-node is a no-op (deleting
an absent property of a primitive raises nothing). -/
def removeGo (current : JVal) (parts : List String) : JVal :=
  match parts with
  | [] => current
  | [last] =>
    match current with
    | JVal.obj fs => JVal.obj (objDelete fs last)
    | other => other
  | k :: rest =>
    match current with
    | JVal.obj fs =>
      match objGet fs k with
      | some v => if jsTruthy v then JVal.obj (objSet fs k (removeGo v rest)) else JVal.obj fs
      | none => JVal.obj fs
    | other => other

/-- PatchManager.removeFromContent (lines 298-309). -/
def removeFromContent (content : JVal) (xpath : String) : JVal :=
  removeGo content (jsSplitDot (xpathToPath xpath))

/-- The walk of PatchManager.replaceInContent: identical descend-and-create
loop, plain overwrite at the last segment. -/
def replaceGo (current : JVal) (parts : List String) (value : JVal) :
    JVal × Option String :=
  match parts with
  | [] => (current, none)
  | [last] => writeProp current last value
  | k :: rest =>
    match current with
    | JVal.obj fs =>
      let child :=
        match objGet fs k with
        | some v => if jsTruthy v then v else JVal.obj []
        | none => JVal.obj []
      let r := replaceGo child rest value
      (JVal.obj (objSet fs k r.1), r.2)
    | JVal.str s => (JVal.str s, some "Cannot create property on string")
    | JVal.arr xs => (JVal.arr xs, some "unmodeled: expando property on ordered sequence")

/-- PatchManager.replaceInContent (lines 311-324). -/
def replaceInContent (content : JVal) (xpath : String) (value : JVal) :
    JVal × Option String :=
  replaceGo content (jsSplitDot (xpathToPath xpath)) value

/-- The AddModExtension case of applyPatchToDef (lines 249-257): ensure
`modExtensions`, replace a non-sequence `li` by `[li].filter(Boolean)`, then
push the value. -/
def addModExtension (content : JVal) (value : JVal) : JVal × Option String :=
  match content with
  | JVal.obj fs =>
    let fs1 :=
      match objGet fs "modExtensions" with
      | some v => if jsTruthy v then fs else objSet fs "modExtensions" (JVal.obj [("li", JVal.arr [])])
      | none => objSet fs "modExtensions" (JVal.obj [("li", JVal.arr [])])
    match objGet fs1 "modExtensions" with
    | some (JVal.obj mfs) =>
      let xs :=
        match objGet mfs "li" with
        | some (JVal.arr xs) => xs
        | some v => if jsTruthy v then [v] else []
        | none => []
      (JVal.obj (objSet fs1 "modExtensions" (JVal.obj (objSet mfs "li" (JVal.arr (xs ++ [value]))))), none)
    | some (JVal.str _) => (JVal.obj fs1, some "Cannot create property on string")
    | some (JVal.arr _) => (JVal.obj fs1, some "unmodeled: expando property on ordered sequence")
    | none => (JVal.obj fs1, some "unreachable: modExtensions was just ensured")
  | JVal.str s => (JVal.str s, some "Cannot create property on string")
  | JVal.arr xs => (JVal.arr xs, some "unmodeled: expando property on ordered sequence")

/-- The mutation switch of applyPatchToDef (lines 236-258); operation kinds
without a case fall through with no mutation and no error. -/
def runMutation (content : JVal) (p : PatchOperation) : JVal × Option String :=
  match p.operation with
  | OpKind.Add => addToContent content p.xpath p.value
  | OpKind.PatchOperationAdd => addToContent content p.xpath p.value
  | OpKind.Remove => (removeFromContent content p.xpath, none)
  | OpKind.PatchOperationRemove => (removeFromContent content p.xpath, none)
  | OpKind.Replace => replaceInContent content p.xpath p.value
  | OpKind.PatchOperationReplace => replaceInContent content p.xpath p.value
  | OpKind.AddModExtension => addModExtension content p.value
  | _ => (content, none)

/-- PatchManager.applyPatchToDef (lines 228-259): lazy before-snapshot, push
onto the patch history, record the target in the applied-to set, then run the
mutation; all of that precedes any raised error, so it persists when the
mutation fails. -/
def applyPatchToDef (d : RWDef) (p : PatchOperation) :
    RWDef × PatchOperation × Option String :=
  let d1 := if optTruthy d.originalContent then d
    else { d with originalContent := some d.content }
  let d2 := { d1 with patchHistory := d1.patchHistory ++ [p.id] }
  let p1 := { p with appliedTo := setAdd p.appliedTo d.defName }
  let r := runMutation d2.content p1
  ({ d2 with content := r.1 }, p1, r.2)

/-- The scan branch of PatchManager.applyPatch: every current definition
whose type or name occurs in the location expression is patched in turn; a
raised error aborts the loop but keeps the mutations already made. -/
def scanApply (data : ServerData) (p : PatchOperation) :
    List (String × RWDef) → ServerData × PatchOperation × Option String
  | [] => (data, p, none)
  | (n, d) :: rest =>
    if matchesXPath d p.xpath then
      let r := applyPatchToDef d p
      let data' := { data with defs := mapSet data.defs n r.1 }
      match r.2.2 with
      | some e => (data', r.2.1, some e)
      | none => scanApply data' r.2.1 rest
    else scanApply data p rest

/-- PatchManager.applyPatch (lines 213-226): a resolved target name is
patched directly when present (and silently skipped when absent); otherwise
all current definitions are scanned with the heuristic matcher. -/
def applyPatch (p : PatchOperation) (data : ServerData) :
    ServerData × PatchOperation × Option String :=
  match p.targetDef with
  | some tn =>
    match mapGet data.defs tn with
    | some d =>
      let r := applyPatchToDef d p
      ({ data with defs := mapSet data.defs tn r.1 }, r.2.1, r.2.2)
    | none => (data, p, none)
  | none => scanApply data p data.defs

/-- PatchManager.checkPatchConditions (lines 191-211). -/
def checkPatchConditions (p : PatchOperation) (data : ServerData) : Bool :=
  match p.conditions with
  | none => true
  | some conds =>
    (match conds.modLoaded with
     | some l => l.all (fun mid => (mapGet data.mods mid).isSome)
     | none => true) &&
    (match conds.modNotLoaded with
     | some l => l.all (fun mid => (mapGet data.mods mid).isNone)
     | none => true)

/-- The incompatible-patch conflict pushed by applyPatches on a raised
mutation error (lines 177-184). -/
def mkIncompatibleConflict (p : PatchOperation) (e : String) : DefConflict :=
  { ctype := ConflictType.incompatible_patch
    severity := Severity.error
    xpath := some p.xpath
    mods := [p.mod]
    description := "Patch failed: " ++ e
    resolution := some "Check patch xpath and target def existence" }

/-- One iteration of the application loop of PatchManager.applyPatches
(lines 165-186): skip silently on an unmet condition, mark success, or mark
failure with the message and record the conflict. -/
def applyLoopBody (data : ServerData) (p : PatchOperation) :
    ServerData × PatchOperation :=
  if checkPatchConditions p data then
    let r := applyPatch p data
    match r.2.2 with
    | some e =>
      ({ r.1 with conflicts := r.1.conflicts ++ [mkIncompatibleConflict p e] },
       { r.2.1 with success := some false, error := some e })
    | none => (r.1, { r.2.1 with success := some true })
  else (data, p)

/-- The comparator of the sort in applyPatches (lines 158-163): by source
priority rank, then by declared order. -/
def patchLE (a b : PatchOperation) : Bool :=
  if a.mod.loadOrder = b.mod.loadOrder then decide (a.order ≤ b.order)
  else decide (a.mod.loadOrder < b.mod.loadOrder)

/-- Stable insertion used to model the (stable) Array.prototype.sort. -/
def insertPatch (p : PatchOperation) : List PatchOperation → List PatchOperation
  | [] => [p]
  | q :: rest => if patchLE q p then q :: insertPatch p rest else p :: q :: rest

/-- Stable sort of the global operation list. -/
def sortPatches (l : List PatchOperation) : List PatchOperation :=
  l.foldl (fun acc p => insertPatch p acc) []

/-- De-duplication via `[...new Set(xs)]`: first occurrences, in order. -/
def jsUniq (l : List ModInfo) : List ModInfo :=
  l.foldl (fun acc m => if m ∈ acc then acc else acc ++ [m]) []

/-- Map-of-lists accumulation used by the collision grouping. -/
def groupUpsert (gs : List (String × List PatchOperation)) (k : String)
    (p : PatchOperation) : List (String × List PatchOperation) :=
  match gs with
  | [] => [(k, [p])]
  | (k', ps) :: rest =>
    if k' = k then (k', ps ++ [p]) :: rest else (k', ps) :: groupUpsert rest k p

/-- Grouping of patches under a string key, preserving Map iteration order. -/
def groupPatches (key : PatchOperation → String) (ps : List PatchOperation) :
    List (String × List PatchOperation) :=
  ps.foldl (fun gs p => groupUpsert gs (key p) p) []

/-- PatchManager.detectPatchCollisions (lines 334-375): group the successful
operations by target (or raw location expression), subgroup by (location
expression, operation kind), and record a warning conflict for every subgroup
with more than one member, naming its distinct sources. -/
def detectPatchCollisionsData (data : ServerData) : ServerData :=
  let succ := data.globalPatches.filter (fun p =>
    match p.success with | some true => true | _ => false)
  let byTarget := groupPatches (fun p => p.targetDef.getD p.xpath) succ
  let newConfs := byTarget.foldl (fun acc g =>
    if g.2.length > 1 then
      let byXPath := groupPatches (fun p => p.xpath ++ ":" ++ opName p.operation) g.2
      byXPath.foldl (fun acc2 h =>
        if h.2.length > 1 then
          match h.2, (jsUniq (h.2.map (fun p => p.mod))).getLast? with
          | p0 :: _, some lastMod =>
            acc2 ++ [{ ctype := ConflictType.patch_collision
                       severity := Severity.warning
                       xpath := some p0.xpath
                       defName := p0.targetDef
                       mods := jsUniq (h.2.map (fun p => p.mod))
                       description := "Multiple mods patch the same location: " ++ h.1
                       resolution := some ("Last patch wins (" ++ lastMod.name ++ "). Consider load order adjustments.") }]
          | _, _ => acc2
        else acc2) acc
    else acc) []
  { data with conflicts := data.conflicts ++ newConfs }

/-- PatchManager.applyPatches (lines 155-189): sort, apply in order, then run
collision detection, with the processed operations written back to the global
list. -/
def applyPatches (data : ServerData) : ServerData :=
  let sorted := sortPatches data.globalPatches
  let folded := sorted.foldl
    (fun (acc : ServerData × List PatchOperation) p =>
      let r := applyLoopBody acc.1 p
      (r.1, acc.2 ++ [r.2]))
    (data, [])
  detectPatchCollisionsData { folded.1 with globalPatches := folded.2 }

/-! ## Inheritance resolver (ReferenceAnalyzer.resolveInheritance,
part_002 lines 96-121).

The resolver reads and writes only the parent name and the content of each
definition, so its state is modeled by the two name-keyed maps it consults
and the memoization set.  Content is `Option JVal`, `none` standing for the
`undefined` a merge of a sentinel child would store. -/

/-- The slice of a definition record the resolver touches. -/
structure RDef where
  parent : Option String := none
  content : Option JVal

/-- The resolver's view of the run state. -/
structure RState where
  defs : List (String × RDef) := []
  adefs : List (String × RDef) := []
  resolved : List String := []

/-- `data.defs.get(n) || data.abstractDefs.get(n)`. -/
def lookupEither (st : RState) (n : String) : Option RDef :=
  match mapGet st.defs n with
  | some d => some d
  | none => mapGet st.adefs n

/-- Write the (possibly undefined) merged content back into whichever map the
fetched definition object lives in. -/
def setDefContent (st : RState) (n : String) (c : Option JVal) : RState :=
  if (mapGet st.defs n).isSome then
    { st with defs := st.defs.map (fun p => if p.1 = n then (p.1, { p.2 with content := c }) else p) }
  else
    { st with adefs := st.adefs.map (fun p => if p.1 = n then (p.1, { p.2 with content := c }) else p) }

/-- The recursive closure `resolve` of resolveInheritance, with an explicit
recursion budget: the outer `none` means the budget ran out (the JavaScript
original has no such budget and simply keeps recursing), while the inner
`Option JVal` is the JavaScript return value, `none` standing for the `null`
of a missing definition or an `undefined` stored content.  The memoization
set is only extended after the recursion into the parent returns. -/
def resolveFuel : Nat → RState → String → Option (Option JVal × RState)
  | 0, _, _ => none
  | fuel + 1, st, name =>
    if name ∈ st.resolved then
      some ((mapGet st.defs name).bind (fun d => d.content), st)
    else
      match lookupEither st name with
      | none => some (none, st)
      | some d =>
        match d.parent with
        | none =>
          some (d.content, { st with resolved := st.resolved ++ [name] })
        | some pname =>
          match resolveFuel fuel st pname with
          | none => none
          | some (parentContent, st1) =>
            let st2 :=
              match parentContent with
              | some pc =>
                if jsTruthy pc then
                  setDefContent st1 name
                    (mergeWithParent pc ((lookupEither st1 name).bind (fun d => d.content)))
                else st1
              | none => st1
            let st3 := { st2 with resolved := st2.resolved ++ [name] }
            some ((lookupEither st3 name).bind (fun d => d.content), st3)

/-- The driver loop of resolveInheritance over the concrete definitions. -/
def resolveAllFuel (fuel : Nat) (st : RState) : List String → Option RState
  | [] => some st
  | n :: rest =>
    match resolveFuel fuel st n with
    | none => none
    | some (_, st') => resolveAllFuel fuel st' rest

/-! ## Cycle detection (ConflictDetector.detectCircularDependencies,
DefParser.ts lines 172-220) -/

/-- The traversal state of the detector: the memo set `visited` (in insertion
order — each append is one full visit of a definition), the recursion
stack, and the conflicts pushed so far. -/
structure CDState where
  visited : List String := []
  stack : List String := []
  conflicts : List DefConflict := []

/-- List removal modelling `recursionStack.delete`. -/
def listErase (l : List String) (x : String) : List String :=
  match l with
  | [] => []
  | y :: rest => if y = x then rest else y :: listErase rest x

/-- The index-or-negative-one behaviour of `path.indexOf(defName)` feeding
`path.slice(cycleStart)`: slicing from -1 yields the last element. -/
def cycleSlice (path : List String) (n : String) : List String :=
  if n ∈ path then path.drop (path.indexOf n)
  else path.drop (path.length - 1)

/-- The closure `hasCycle` with an explicit recursion budget (outer `none` =
budget exhausted); returns the boolean result and the updated state.  A
discovered back edge pushes one circular-dependency conflict and returns true
immediately — note that the early returns skip the stack cleanup, exactly as
in the source. -/
def hasCycleF (defs : List (String × RWDef)) :
    Nat → CDState → String → List String → Option (Bool × CDState)
  | 0, _, _, _ => none
  | fuel + 1, st, defName, path =>
    if defName ∈ st.stack then
      let cycle := cycleSlice path defName ++ [defName]
      let st' :=
        match mapGet defs defName with
        | some d =>
          { st with conflicts := st.conflicts ++
              [{ ctype := ConflictType.circular_dependency
                 severity := Severity.error
                 defName := some defName
                 mods := [d.mod]
                 description := "Circular dependency: " ++ joinWith " -> " cycle
                 resolution := some "Review and break the dependency cycle" }] }
        | none => st
      some (true, st')
    else if defName ∈ st.visited then
      some (false, st)
    else
      let st1 := { st with visited := st.visited ++ [defName],
                           stack := st.stack ++ [defName] }
      let refs :=
        match mapGet defs defName with
        | some d => d.outgoingRefs.map (fun (r : DefReference) => r.toDef)
        | none => []
      let looped := refs.foldl
        (fun acc r =>
          match acc with
          | none => none
          | some (true, stAcc) => some (true, stAcc)
          | some (false, stAcc) => hasCycleF defs fuel stAcc r (path ++ [defName]))
        (some (false, st1))
      match looped with
      | none => none
      | some (true, st2) => some (true, st2)
      | some (false, st2) => some (false, { st2 with stack := listErase st2.stack defName })

/-- The outer loop of detectCircularDependencies over the registry's names. -/
def detectLoop (defs : List (String × RWDef)) (fuel : Nat) :
    CDState → List String → Option CDState
  | st, [] => some st
  | st, n :: rest =>
    if n ∈ st.visited then detectLoop defs fuel st rest
    else
      match hasCycleF defs fuel st n [] with
      | none => none
      | some (_, st') => detectLoop defs fuel st' rest

/-- ConflictDetector.detectCircularDependencies with a recursion budget:
runs the outer loop over all registered names starting from empty visited and
stack sets. -/
def detectCircularDependenciesF (fuel : Nat) (defs : List (String × RWDef)) :
    Option CDState :=
  detectLoop defs fuel {} (defs.map (fun p => p.1))

/-! ## Supporting lemmas -/

theorem mapGet_mapSet_self {α : Type} (m : List (String × α)) (k : String)
    (v : α) : mapGet (mapSet m k v) k = some v := by
  induction m with
  | nil => simp [mapSet, mapGet]
  | cons p rest ih =>
    obtain ⟨k', v'⟩ := p
    by_cases h : k' = k
    · simp [mapSet, mapGet, h]
    · simp [mapSet, mapGet, h, ih]

theorem mapGet_mapSet_ne {α : Type} (m : List (String × α)) (k k' : String)
    (v : α) (h : k ≠ k') : mapGet (mapSet m k v) k' = mapGet m k' := by
  induction m with
  | nil => simp [mapSet, mapGet, h]
  | cons p rest ih =>
    obtain ⟨k0, v0⟩ := p
    by_cases h0 : k0 = k
    · subst h0; simp [mapSet, mapGet, h]
    · simp [mapSet, mapGet, h0, ih]

/-! ## Claim C5 -/

/-- C5: translating a location expression to a path deletes every bracket
group, the bare trailing array marker `[]` included, so an add operation
whose expression ends in `[]` overwrites the addressed key with the payload
instead of appending to the sequence under it.  The append branch runs only
when the marker survives the translation, e.g. when a line terminator inside
the brackets keeps the group regex from matching and the later whitespace
removal leaves a trailing `[]` — in which case the payload is appended to the
`li` sequence under the key, creating it if absent. -/
theorem addToContent_trailing_marker_stripped :
    addToContent (JVal.obj []) "comps[]" (JVal.str "v")
      = (JVal.obj [("comps", JVal.str "v")], none)
    ∧ addToContent (JVal.obj [("comps", JVal.obj [("li", JVal.arr [JVal.str "x"])])])
        "comps[]" (JVal.str "v")
      = (JVal.obj [("comps", JVal.str "v")], none)
    ∧ addToContent (JVal.obj []) "comps[\n]" (JVal.str "v")
      = (JVal.obj [("comps", JVal.obj [("li", JVal.arr [JVal.str "v"])])], none)
    ∧ addToContent (JVal.obj [("comps", JVal.obj [("li", JVal.arr [JVal.str "x"])])])
        "comps[\n]" (JVal.str "v")
      = (JVal.obj [("comps", JVal.obj [("li", JVal.arr [JVal.str "x", JVal.str "v"])])], none) :=
  ⟨rfl, rfl, rfl, rfl⟩

/-! ## Claim C2 -/

/-- A registry holding one definition whose declared parent is itself. -/
def cycleRegistry : RState :=
  { defs := [("A", { parent := some "A", content := some (JVal.obj []) })] }

/-- C2: on a registry whose parent chain contains a cycle, inheritance
resolution never returns, whatever recursion budget it is given — the
memoization set is extended only after the recursion into the parent, so it
never cuts the cycle. -/
theorem resolveInheritance_self_parent_diverges :
    ∀ fuel, resolveFuel fuel cycleRegistry "A" = none := by
  intro fuel
  induction fuel with
  | zero => rfl
  | succ n ih =>
    have hmem : ("A" ∈ cycleRegistry.resolved) ↔ False := by simp [cycleRegistry]
    have hl : lookupEither cycleRegistry "A"
        = some { parent := some "A", content := some (JVal.obj []) } := rfl
    simp only [resolveFuel, hmem, iff_false, if_neg (fun h => h), hl, ih]

/-! ## Claim C9 -/

/-- The source owning the synthetic triangle. -/
def triMod : ModInfo := { packageId := "core", name := "Core", loadOrder := 0 }

/-- One synthetic definition with a single outgoing reference. -/
def triDef (n other : String) : RWDef :=
  { defName := n, type := "ThingDef", content := JVal.obj [], mod := triMod,
    outgoingRefs := [{ fromDef := n, toDef := other, referenceType := "other", path := "p" }] }

/-- The synthetic reference set {A→B, B→C, C→A}. -/
def triRegistry : List (String × RWDef) :=
  [("A", triDef "A" "B"), ("B", triDef "B" "C"), ("C", triDef "C" "A")]

/-- C9: on the triangle the detector terminates within its budget, emits
exactly one circular-dependency conflict of severity error whose description
names all three definitions, and performs exactly one full visit of each
definition (the visited list records one entry per full visit, in order). -/
theorem cycle_detection_triangle :
    detectCircularDependenciesF 8 triRegistry =
      some { visited := ["A", "B", "C"],
             stack := ["A", "B", "C"],
             conflicts := [{ ctype := ConflictType.circular_dependency,
                             severity := Severity.error,
                             defName := some "A",
                             mods := [triMod],
                             description := "Circular dependency: A -> B -> C -> A",
                             resolution := some "Review and break the dependency cycle" }] }
    ∧ (["A", "B", "C"] : List String).Nodup
    ∧ (strContains "Circular dependency: A -> B -> C -> A" "A"
        && strContains "Circular dependency: A -> B -> C -> A" "B"
        && strContains "Circular dependency: A -> B -> C -> A" "C") = true :=
  ⟨rfl, by decide, rfl⟩

/-! ## Claim C1 -/

theorem registerDef_fresh (data : ServerData) (d : RWDef)
    (h0 : mapGet data.defs d.defName = none) :
    (registerDef data d).defs = mapSet data.defs d.defName d
    ∧ (registerDef data d).conflicts = data.conflicts
    ∧ (registerDef data d).abstractDefs =
        (if d.abstract then mapSet data.abstractDefs d.defName d else data.abstractDefs)
    ∧ (registerDef data d).defsByType =
        mapSet data.defsByType d.type (((mapGet data.defsByType d.type).getD []) ++ [d])
    ∧ (registerDef data d).defsByMod =
        mapSet data.defsByMod d.mod.packageId
          (((mapGet data.defsByMod d.mod.packageId).getD []) ++ [d]) := by
  obtain ⟨dn, dt, dp, da, dc, doc, df, dm, dor, dir, dph, dcf⟩ := d
  by_cases habs : da <;> simp_all [registerDef]

theorem registerDef_existing (data : ServerData) (d ex : RWDef)
    (h0 : mapGet data.defs d.defName = some ex)
    (hpkg : ex.mod.packageId ≠ d.mod.packageId) :
    (registerDef data d).conflicts = data.conflicts ++ [overrideConflictOf ex d]
    ∧ (ex.mod.loadOrder < d.mod.loadOrder →
        (registerDef data d).defs = mapSet data.defs d.defName
          { d with conflicts := d.conflicts ++ [overrideConflictOf ex d] })
    ∧ (¬ ex.mod.loadOrder < d.mod.loadOrder →
        (registerDef data d).defs = data.defs)
    ∧ (d.abstract = true → (registerDef data d).abstractDefs
        = mapSet data.abstractDefs d.defName
            { d with conflicts := d.conflicts ++ [overrideConflictOf ex d] })
    ∧ (ex.mod.loadOrder < d.mod.loadOrder →
        (registerDef data d).defsByType =
          mapSet data.defsByType d.type
            (removeFirstByName ((mapGet data.defsByType d.type).getD []) d.defName ++
              [{ d with conflicts := d.conflicts ++ [overrideConflictOf ex d] }]))
    ∧ (¬ ex.mod.loadOrder < d.mod.loadOrder →
        (registerDef data d).defsByType = data.defsByType) := by
  obtain ⟨dn, dt, dp, da, dc, doc, df, dm, dor, dir, dph, dcf⟩ := d
  by_cases hlt : ex.mod.loadOrder < dm.loadOrder <;>
    by_cases habs : da <;>
      simp [registerDef, h0, hpkg, habs, hlt]

/-- C1: registering two same-named definitions from two different sources
leaves as current holder the one whose source has the strictly greater
priority rank (equal ranks keep the first seen), and records exactly one
override conflict of severity warning naming both sources. -/
theorem registry_override_priority
    (data : ServerData) (d1 d2 : RWDef) (n : String)
    (h1 : d1.defName = n) (h2 : d2.defName = n)
    (hpkg : d1.mod.packageId ≠ d2.mod.packageId)
    (h0 : mapGet data.defs n = none) :
    ((mapGet (registerDef (registerDef data d1) d2).defs n).map defKey
        = some (defKey (if d1.mod.loadOrder < d2.mod.loadOrder then d2 else d1)))
    ∧ ∃ c, (registerDef (registerDef data d1) d2).conflicts = data.conflicts ++ [c]
        ∧ c.ctype = ConflictType.override
        ∧ c.severity = Severity.warning
        ∧ c.defName = some n
        ∧ c.mods = [d1.mod, d2.mod] := by
  obtain ⟨hdefs1, hconf1, -, -, -⟩ :=
    registerDef_fresh data d1 (by rw [h1]; exact h0)
  have hget1 : mapGet (registerDef data d1).defs n = some d1 := by
    rw [hdefs1, h1]; exact mapGet_mapSet_self _ _ _
  obtain ⟨hconf2, hlt2, hge2, -, -, -⟩ :=
    registerDef_existing (registerDef data d1) d2 d1 (by rw [h2]; exact hget1) hpkg
  constructor
  · by_cases hlt : d1.mod.loadOrder < d2.mod.loadOrder
    · rw [hlt2 hlt, ← h2, mapGet_mapSet_self, if_pos hlt]
      simp [defKey]
    · rw [hge2 hlt, hget1, if_neg hlt]
      simp
  · exact ⟨overrideConflictOf d1 d2, by rw [hconf2, hconf1],
      rfl, rfl, by simp [overrideConflictOf, h2], by simp [overrideConflictOf]⟩

/-- Evaluation of the C1 theorem at a concrete pair of sources. -/
def wMod1 : ModInfo := { packageId := "m1", name := "ModOne", loadOrder := 0 }
def wMod2 : ModInfo := { packageId := "m2", name := "ModTwo", loadOrder := 1 }
def wDef1 : RWDef := { defName := "Foo", type := "ThingDef", content := JVal.obj [], mod := wMod1 }
def wDef2 : RWDef := { defName := "Foo", type := "ThingDef", content := JVal.obj [], mod := wMod2 }

theorem registry_override_priority_witness :
    wDef1.mod.packageId ≠ wDef2.mod.packageId
    ∧ (((mapGet (registerDef (registerDef emptyData wDef1) wDef2).defs "Foo").map defKey
        = some (defKey (if wDef1.mod.loadOrder < wDef2.mod.loadOrder then wDef2 else wDef1)))
      ∧ ∃ c, (registerDef (registerDef emptyData wDef1) wDef2).conflicts
            = emptyData.conflicts ++ [c]
          ∧ c.ctype = ConflictType.override
          ∧ c.severity = Severity.warning
          ∧ c.defName = some "Foo"
          ∧ c.mods = [wDef1.mod, wDef2.mod]) :=
  ⟨by decide,
   registry_override_priority emptyData wDef1 wDef2 "Foo" rfl rfl (by decide) rfl⟩

/-! ## Claim C10 -/

/-- C10: an abstract definition unconditionally replaces any existing entry
for its name in the abstract lookup — last writer wins, whatever the priority
ranks — while the concrete current-definition map keeps the entry from the
strictly higher-priority source. -/
theorem abstract_lookup_last_writer_wins
    (data : ServerData) (d1 d2 : RWDef) (n : String)
    (h1 : d1.defName = n) (h2 : d2.defName = n)
    (ha2 : d2.abstract = true)
    (hpkg : d1.mod.packageId ≠ d2.mod.packageId)
    (h0 : mapGet data.defs n = none) :
    ((mapGet (registerDef (registerDef data d1) d2).abstractDefs n).map defKey
        = some (defKey d2))
    ∧ (d2.mod.loadOrder ≤ d1.mod.loadOrder →
        (mapGet (registerDef (registerDef data d1) d2).defs n).map defKey
          = some (defKey d1)) := by
  obtain ⟨hdefs1, -, -, -, -⟩ := registerDef_fresh data d1 (by rw [h1]; exact h0)
  have hget1 : mapGet (registerDef data d1).defs n = some d1 := by
    rw [hdefs1, h1]; exact mapGet_mapSet_self _ _ _
  obtain ⟨-, -, hge2, habs2, -, -⟩ :=
    registerDef_existing (registerDef data d1) d2 d1 (by rw [h2]; exact hget1) hpkg
  constructor
  · rw [habs2 ha2, ← h2, mapGet_mapSet_self]
    simp [defKey]
  · intro hle
    rw [hge2 (Nat.not_lt.mpr hle), hget1]
    rfl

/-- Concrete instantiation: the later abstract definition has the *lower*
rank, yet it owns the abstract lookup while the concrete map keeps the
earlier, higher-ranked one. -/
def aMod1 : ModInfo := { packageId := "a1", name := "AbsOne", loadOrder := 5 }
def aMod2 : ModInfo := { packageId := "a2", name := "AbsTwo", loadOrder := 2 }
def aDef1 : RWDef :=
  { defName := "Base", type := "ThingDef", abstract := true, content := JVal.obj [], mod := aMod1 }
def aDef2 : RWDef :=
  { defName := "Base", type := "ThingDef", abstract := true, content := JVal.obj [], mod := aMod2 }

theorem abstract_lookup_last_writer_wins_witness :
    aDef1.mod.packageId ≠ aDef2.mod.packageId
    ∧ (((mapGet (registerDef (registerDef emptyData aDef1) aDef2).abstractDefs "Base").map defKey
          = some (defKey aDef2))
       ∧ (aDef2.mod.loadOrder ≤ aDef1.mod.loadOrder →
          (mapGet (registerDef (registerDef emptyData aDef1) aDef2).defs "Base").map defKey
            = some (defKey aDef1))) :=
  ⟨by decide,
   abstract_lookup_last_writer_wins emptyData aDef1 aDef2 "Base" rfl rfl rfl (by decide) rfl⟩

/-! ## Claim C6 -/

/-- The fixture for the counterexample: a single abstract definition. -/
def cAbsMod : ModInfo := { packageId := "m1", name := "ModOne", loadOrder := 0 }
def cAbsDef : RWDef :=
  { defName := "AbsBase", type := "ThingDef", abstract := true, content := JVal.obj [], mod := cAbsMod }

/-- Registering an abstract definition also installs it as the *current*
holder in the concrete definitions map (and its type bucket), refuting the
claim that an abstract definition is held only in the abstract lookup and
never appears as a current concrete result. -/
theorem abstract_def_in_concrete_map_counterexample :
    ((mapGet (registerDef emptyData cAbsDef).defs "AbsBase").map defKey
      = some (defKey cAbsDef))
    ∧ ((mapGet (registerDef emptyData cAbsDef).defsByType "ThingDef").map (List.map defKey)
      = some [defKey cAbsDef]) :=
  ⟨rfl, rfl⟩

/-- C6 (amended): an abstract definition is stored in the abstract lookup
and additionally participates in the concrete registry like any other
definition — it becomes the current holder when it wins by rank — and a name
lookup returns the concrete entry, falling back to the abstract one. -/
theorem abstract_def_registration_amended
    (data : ServerData) (d : RWDef) (n : String)
    (h1 : d.defName = n) (ha : d.abstract = true)
    (h0 : mapGet data.defs n = none) :
    ((mapGet (registerDef data d).abstractDefs n).map defKey = some (defKey d))
    ∧ ((mapGet (registerDef data d).defs n).map defKey = some (defKey d))
    ∧ ((lookupDef (registerDef data d) n).map defKey = some (defKey d))
    ∧ (∀ (data' : ServerData) (n' : String),
        (mapGet data'.defs n' = none → lookupDef data' n' = mapGet data'.abstractDefs n')
        ∧ (∀ dd, mapGet data'.defs n' = some dd → lookupDef data' n' = some dd)) := by
  obtain ⟨hdefs, -, habs, -, -⟩ := registerDef_fresh data d (by rw [h1]; exact h0)
  have hg : mapGet (registerDef data d).defs n = some d := by
    rw [hdefs, h1]; exact mapGet_mapSet_self _ _ _
  refine ⟨?_, by rw [hg]; rfl, by simp [lookupDef, hg], ?_⟩
  · rw [habs, if_pos ha, ← h1, mapGet_mapSet_self]
    rfl
  · intro data' n'
    exact ⟨fun h => by simp [lookupDef, h], fun dd h => by simp [lookupDef, h]⟩

theorem abstract_def_registration_amended_witness :
    cAbsDef.abstract = true
    ∧ (((mapGet (registerDef emptyData cAbsDef).abstractDefs "AbsBase").map defKey
          = some (defKey cAbsDef))
       ∧ ((mapGet (registerDef emptyData cAbsDef).defs "AbsBase").map defKey
          = some (defKey cAbsDef))
       ∧ ((lookupDef (registerDef emptyData cAbsDef) "AbsBase").map defKey
          = some (defKey cAbsDef))
       ∧ (∀ (data' : ServerData) (n' : String),
          (mapGet data'.defs n' = none → lookupDef data' n' = mapGet data'.abstractDefs n')
          ∧ (∀ dd, mapGet data'.defs n' = some dd → lookupDef data' n' = some dd))) :=
  ⟨rfl, abstract_def_registration_amended emptyData cAbsDef "AbsBase" rfl rfl rfl⟩

/-! ## Claim C7 -/

/-- The fixture for the stale-bucket counterexample: the same name registered
under two different type tags from two sources. -/
def tMod1 : ModInfo := { packageId := "m1", name := "ModOne", loadOrder := 0 }
def tMod2 : ModInfo := { packageId := "m2", name := "ModTwo", loadOrder := 1 }
def tDef1 : RWDef := { defName := "Thing", type := "TypeA", content := JVal.obj [], mod := tMod1 }
def tDef2 : RWDef := { defName := "Thing", type := "TypeB", content := JVal.obj [], mod := tMod2 }

/-- The displaced definition is *not* removed from the type bucket it was
registered under: after its displacement by a same-named higher-priority
definition of a different type, the old bucket still holds it, refuting the
claim that a displaced definition is removed from its old type bucket (the
holder then appears in two buckets, not exactly one). -/
theorem displaced_def_stale_type_bucket_counterexample :
    ((mapGet (registerDef (registerDef emptyData tDef1) tDef2).defs "Thing").map defKey
      = some (defKey tDef2))
    ∧ ((mapGet (registerDef (registerDef emptyData tDef1) tDef2).defsByType "TypeA").map
        (List.map defKey) = some [defKey tDef1]) :=
  ⟨rfl, rfl⟩

/-- C7 (amended): a displacement removes a same-named entry from the bucket
of the *incoming* definition's type only.  When displacing and displaced
definitions share a type tag the displaced one is removed and the holder
appears in exactly one bucket; when the types differ the displaced definition
remains in its old bucket. -/
theorem type_bucket_displacement_amended
    (data : ServerData) (d1 d2 : RWDef) (n : String)
    (h1 : d1.defName = n) (h2 : d2.defName = n)
    (hpkg : d1.mod.packageId ≠ d2.mod.packageId)
    (hlt : d1.mod.loadOrder < d2.mod.loadOrder)
    (h0 : mapGet data.defs n = none)
    (hbt1 : mapGet data.defsByType d1.type = none)
    (hbt2 : mapGet data.defsByType d2.type = none) :
    (d1.type = d2.type →
      (mapGet (registerDef (registerDef data d1) d2).defsByType d2.type).map (List.map defKey)
        = some [defKey d2])
    ∧ (d1.type ≠ d2.type →
      ((mapGet (registerDef (registerDef data d1) d2).defsByType d1.type).map (List.map defKey)
          = some [defKey d1])
      ∧ ((mapGet (registerDef (registerDef data d1) d2).defsByType d2.type).map (List.map defKey)
          = some [defKey d2])) := by
  obtain ⟨hdefs1, -, -, hbt1', -⟩ := registerDef_fresh data d1 (by rw [h1]; exact h0)
  have hget1 : mapGet (registerDef data d1).defs n = some d1 := by
    rw [hdefs1, h1]; exact mapGet_mapSet_self _ _ _
  obtain ⟨-, -, -, -, hbtlt, -⟩ :=
    registerDef_existing (registerDef data d1) d2 d1 (by rw [h2]; exact hget1) hpkg
  rw [hbt1, Option.getD_none, List.nil_append] at hbt1'
  constructor
  · intro ht
    have hbucket : mapGet (registerDef data d1).defsByType d2.type = some [d1] := by
      rw [hbt1', ← ht, mapGet_mapSet_self]
    rw [hbtlt hlt, mapGet_mapSet_self, hbucket]
    simp [removeFirstByName, h1, h2, defKey]
  · intro ht
    constructor
    · rw [hbtlt hlt, mapGet_mapSet_ne _ _ _ _ (fun h => ht h.symm), hbt1', mapGet_mapSet_self]
      rfl
    · have hbucket : mapGet (registerDef data d1).defsByType d2.type = none := by
        rw [hbt1', mapGet_mapSet_ne _ _ _ _ ht, hbt2]
      rw [hbtlt hlt, mapGet_mapSet_self, hbucket]
      simp [removeFirstByName, defKey]

/-- Evaluation at a same-typed concrete pair (plus the boundary fact used to
discharge the hypotheses). -/
def uDef1 : RWDef := { defName := "Thing", type := "TypeA", content := JVal.obj [], mod := tMod1 }
def uDef2 : RWDef := { defName := "Thing", type := "TypeA", content := JVal.obj [], mod := tMod2 }

theorem type_bucket_displacement_amended_witness :
    uDef1.mod.loadOrder < uDef2.mod.loadOrder
    ∧ ((mapGet (registerDef (registerDef emptyData uDef1) uDef2).defsByType "TypeA").map
        (List.map defKey) = some [defKey uDef2]) :=
  ⟨by decide,
   (type_bucket_displacement_amended emptyData uDef1 uDef2 "Thing" rfl rfl (by decide)
      (by decide) rfl rfl rfl).1 rfl⟩

/-! ## Claim C8 -/

theorem objDelete_sublist (m : List (String × JVal)) (k : String) :
    (objDelete m k).Sublist m := by
  induction m with
  | nil => simp [objDelete]
  | cons p rest ih =>
    obtain ⟨k0, v0⟩ := p
    by_cases h : k0 = k
    · simp [objDelete, h]
    · simpa [objDelete, h] using ih.cons₂ (k0, v0)

theorem objDelete_eq_filter (m : List (String × JVal)) (k : String)
    (h : (m.map Prod.fst).Nodup) :
    objDelete m k = m.filter (fun p => decide (¬ p.1 = k)) := by
  induction m with
  | nil => simp [objDelete]
  | cons p rest ih =>
    obtain ⟨k0, v0⟩ := p
    simp only [List.map_cons, List.nodup_cons] at h
    by_cases hk : k0 = k
    · subst hk
      have hrest : List.filter (fun p => !decide (p.1 = k0)) rest = rest :=
        List.filter_eq_self.mpr (fun p hp => by
          simp only [Bool.not_eq_true', decide_eq_false_iff_not]
          intro heq
          exact h.1 (heq ▸ List.mem_map_of_mem Prod.fst hp))
      simp [objDelete, hrest]
    · simp [objDelete, hk, ih h.2]

theorem mergeEntries_sentinel_step (m : List (String × JVal)) (k : String)
    (rest : List (String × JVal)) :
    mergeEntries m ((k, JVal.str inheritRemove) :: rest)
      = mergeEntries (objDelete m k) rest := by
  rw [mergeEntries]
  · simp only [isInheritRemove, inheritRemove]
    rw [if_pos (by rfl)]
  · exact fun vfs h => JVal.noConfusion h

theorem mergeWithParent_obj_obj (pfs cfs : List (String × JVal)) :
    mergeWithParent (JVal.obj pfs) (some (JVal.obj cfs))
      = some (JVal.obj (mergeEntries pfs cfs)) := by
  rw [mergeWithParent]
  rw [if_neg (by simp [isInheritRemove])]

theorem mergeEntries_allSentinel (cfs : List (String × JVal)) :
    ∀ m, (∀ p ∈ cfs, p.2 = JVal.str inheritRemove) → ((m.map Prod.fst).Nodup) →
      mergeEntries m cfs
        = m.filter (fun p => decide (¬ p.1 ∈ cfs.map Prod.fst)) := by
  induction cfs with
  | nil =>
    intro m _ _
    simp [mergeEntries]
  | cons q rest ih =>
    intro m hall hnd
    obtain ⟨k, v⟩ := q
    have hv : v = JVal.str inheritRemove := hall (k, v) (by simp)
    subst hv
    rw [mergeEntries_sentinel_step]
    have hnd' : ((objDelete m k).map Prod.fst).Nodup :=
      ((objDelete_sublist m k).map Prod.fst).nodup hnd
    rw [ih (objDelete m k) (fun p hp => hall p (by simp [hp])) hnd']
    rw [objDelete_eq_filter m k hnd, List.filter_filter]
    apply List.filter_congr
    intro p _
    by_cases h1 : p.1 = k <;> by_cases h2 : p.1 ∈ rest.map Prod.fst <;>
      simp [h1, h2]

/-- C8: the inheritance merge is a no-op for a definition that declares no
parent (one resolve step leaves the content untouched and only marks the name
resolved), and merging a child tree all of whose keys carry the deletion
sentinel against a parent tree yields the parent's fields with exactly the
child's keys removed and every other field unchanged. -/
theorem merge_no_parent_noop_and_sentinel_removes :
    (∀ (st : RState) (name : String) (d : RDef) (fuel : Nat),
        mapGet st.defs name = some d → d.parent = none → ¬ name ∈ st.resolved →
        resolveFuel (fuel + 1) st name
          = some (d.content, { st with resolved := st.resolved ++ [name] }))
    ∧ (∀ (pfs cfs : List (String × JVal)),
        (∀ p ∈ cfs, p.2 = JVal.str inheritRemove) →
        ((pfs.map Prod.fst).Nodup) →
        mergeWithParent (JVal.obj pfs) (some (JVal.obj cfs))
          = some (JVal.obj (pfs.filter (fun p => decide (¬ p.1 ∈ cfs.map Prod.fst))))) := by
  constructor
  · intro st name d fuel hd hp hnot
    simp [resolveFuel, lookupEither, hd, hp, hnot]
  · intro pfs cfs hall hnd
    rw [mergeWithParent_obj_obj, mergeEntries_allSentinel cfs pfs hall hnd]

/-- Concrete instantiations of the two merge properties: a parentless
definition resolved in one step, and a sentinel-only child erasing exactly
its keys from the parent. -/
def mNoParentState : RState :=
  { defs := [("Solo", { parent := none, content := some (JVal.str "c") })] }

theorem merge_no_parent_noop_and_sentinel_removes_witness :
    (mapGet mNoParentState.defs "Solo"
        = some { parent := none, content := some (JVal.str "c") })
    ∧ resolveFuel 1 mNoParentState "Solo"
        = some (some (JVal.str "c"), { mNoParentState with resolved := ["Solo"] })
    ∧ mergeWithParent (JVal.obj [("hp", JVal.str "10"), ("tags", JVal.str "t")])
        (some (JVal.obj [("hp", JVal.str "Inherit.Remove")]))
        = some (JVal.obj ([("hp", JVal.str "10"), ("tags", JVal.str "t")].filter
            (fun p => decide (¬ p.1 ∈ ([("hp", JVal.str "Inherit.Remove")].map Prod.fst))))) :=
  ⟨rfl,
   (merge_no_parent_noop_and_sentinel_removes.1 mNoParentState "Solo"
      { parent := none, content := some (JVal.str "c") } 0 rfl rfl (by decide)),
   (merge_no_parent_noop_and_sentinel_removes.2
      [("hp", JVal.str "10"), ("tags", JVal.str "t")]
      [("hp", JVal.str "Inherit.Remove")]
      (by intro p hp; simp at hp; rw [hp]; rfl)
      (by decide))⟩

/-! ## Claim C3 -/

theorem mem_setAdd_self (l : List String) (x : String) : x ∈ setAdd l x := by
  by_cases h : x ∈ l <;> simp [setAdd, h]

/-- The fixture: one definition whose `label` field is a scalar, and one
unconditional replace operation whose location expression walks through that
scalar — a mutation that raises a TypeError in the strict-mode source. -/
def pMod : ModInfo := { packageId := "pm", name := "PatchMod", loadOrder := 0 }
def pDef : RWDef :=
  { defName := "label", type := "ThingDef",
    content := JVal.obj [("defName", JVal.str "label"), ("label", JVal.str "Foo")],
    mod := pMod }
def pPatch : PatchOperation :=
  { id := "pm_p.xml_0", mod := pMod, filePath := "p.xml",
    operation := OpKind.Replace, xpath := "label/b", value := JVal.str "v", order := 0 }
def pData : ServerData := { defs := [("label", pDef)], globalPatches := [pPatch] }

/-- A failed operation appears in both the target's patch history and its own
applied-to set: the application pass marks the operation failed with the
raised message and records the incompatible-patch conflict, yet the operation
was already appended to the history and the applied-to set before the
mutation ran — refuting the claim that only a succeeding operation is
appended and that a failed one appears in neither. -/
theorem applyPatches_failed_op_in_history_counterexample :
    ((applyPatches pData).globalPatches.map
        (fun p => (p.success, p.error, p.appliedTo)))
      = [(some false, some "Cannot create property on string", ["label"])]
    ∧ ((mapGet (applyPatches pData).defs "label").map (fun d => d.patchHistory))
      = some ["pm_p.xml_0"]
    ∧ ((applyPatches pData).conflicts.map (fun c => (c.ctype, c.severity)))
      = [(ConflictType.incompatible_patch, Severity.error)] :=
  ⟨rfl, rfl, rfl⟩

/-- C3 (amended): for an operation processed by the application pass whose
resolved target is present, the operation is appended to the target's patch
history and its own applied-to set as soon as the target is resolved, before
the mutation runs — so it appears in both whether or not the mutation fails;
a raised mutation error marks the operation failed with the error message and
records one incompatible-patch conflict of severity error, and only a raised
error does so — otherwise the operation is marked succeeded and no conflict
is recorded. -/
theorem applyLoopBody_error_marking
    (data : ServerData) (p : PatchOperation) (n : String) (d : RWDef)
    (hc : checkPatchConditions p data = true)
    (ht : p.targetDef = some n)
    (hd : mapGet data.defs n = some d)
    (hdn : d.defName = n) :
    (∀ e, (runMutation d.content { p with appliedTo := setAdd p.appliedTo d.defName }).2 = some e →
        (applyLoopBody data p).2.success = some false
        ∧ (applyLoopBody data p).2.error = some e
        ∧ (applyLoopBody data p).1.conflicts = data.conflicts ++ [mkIncompatibleConflict p e]
        ∧ (mkIncompatibleConflict p e).ctype = ConflictType.incompatible_patch
        ∧ (mkIncompatibleConflict p e).severity = Severity.error)
    ∧ ((runMutation d.content { p with appliedTo := setAdd p.appliedTo d.defName }).2 = none →
        (applyLoopBody data p).2.success = some true
        ∧ (applyLoopBody data p).1.conflicts = data.conflicts)
    ∧ ((mapGet (applyLoopBody data p).1.defs n).map (fun dd => dd.patchHistory)
        = some (d.patchHistory ++ [p.id]))
    ∧ n ∈ (applyLoopBody data p).2.appliedTo := by
  have hcontent : (if optTruthy d.originalContent then d
      else { d with originalContent := some d.content }).content = d.content := by
    split <;> rfl
  have hhist : (if optTruthy d.originalContent then d
      else { d with originalContent := some d.content }).patchHistory = d.patchHistory := by
    split <;> rfl
  simp only [applyLoopBody, hc, if_true, applyPatch, ht, hd, applyPatchToDef,
    hcontent, hhist]
  rcases hmut : runMutation d.content
      { p with targetDef := some n, appliedTo := setAdd p.appliedTo d.defName } with ⟨c', err⟩
  cases err with
  | some e =>
    simp only [hmut]
    refine ⟨fun e' he' => ?_, fun hnone => ?_, ?_, ?_⟩
    · obtain rfl : e = e' := by simpa using he'
      refine ⟨?_, ?_, ?_, ?_, ?_⟩ <;> first | rfl | trivial
    · exact absurd hnone (by simp)
    · rw [mapGet_mapSet_self]
      simp [hhist]
    · rw [hdn]
      exact mem_setAdd_self _ _
  | none =>
    simp only [hmut]
    refine ⟨fun e' he' => absurd he' (by simp), fun _ => ⟨by trivial, by trivial⟩, ?_, ?_⟩
    · rw [mapGet_mapSet_self]
      simp [hhist]
    · rw [hdn]
      exact mem_setAdd_self _ _

/-- The witness fixture: the same definition, patched through its resolved
target name. -/
def c3wPatch : PatchOperation :=
  { id := "pm_w.xml_0", mod := pMod, filePath := "w.xml",
    operation := OpKind.Replace, xpath := "label/b", value := JVal.str "v",
    order := 0, targetDef := some "label" }
def c3wData : ServerData := { defs := [("label", pDef)] }

theorem applyLoopBody_error_marking_witness :
    checkPatchConditions c3wPatch c3wData = true
    ∧ ((mapGet (applyLoopBody c3wData c3wPatch).1.defs "label").map
        (fun dd => dd.patchHistory) = some (pDef.patchHistory ++ [c3wPatch.id]))
    ∧ "label" ∈ (applyLoopBody c3wData c3wPatch).2.appliedTo :=
  ⟨rfl,
   (applyLoopBody_error_marking c3wData c3wPatch "label" pDef rfl rfl rfl rfl).2.2.1,
   (applyLoopBody_error_marking c3wData c3wPatch "label" pDef rfl rfl rfl rfl).2.2.2⟩

/-! ## Claim C4 -/

/-- A successful add operation aimed at a resolved target. -/
def collPatch (i : String) (mo : ModInfo) (o : Nat) (t x : String) (v : JVal) :
    PatchOperation :=
  { id := i, mod := mo, filePath := "p.xml", operation := OpKind.Add, xpath := x,
    value := v, order := o, success := some true, targetDef := some t }

/-- The single-source fixture: one mod, two successful operations on the same
target, location expression and kind. -/
def qMod : ModInfo := { packageId := "qm", name := "QuadMod", loadOrder := 0 }
def qData : ServerData :=
  { globalPatches := [collPatch "q1" qMod 0 "T" "T/comps" (JVal.str "a"),
                      collPatch "q2" qMod 1 "T" "T/comps" (JVal.str "b")] }

/-- Collision detection *does* emit a patch-collision conflict for a group
whose multiple operations all come from a single source (the subgroup test is
on the number of operations, not the number of distinct sources), refuting
the claim that such a group produces no conflict. -/
theorem patch_collision_single_source_counterexample :
    ((detectPatchCollisionsData qData).conflicts.map
        (fun c => (c.ctype, c.severity, c.mods.map (fun m => m.packageId))))
      = [(ConflictType.patch_collision, Severity.warning, ["qm"])] :=
  rfl

/-- C4 (amended): a patch-collision conflict of severity warning is emitted
for a subgroup of successful operations sharing the same target and the same
(location expression, operation kind) whenever the subgroup holds more than
one operation — including when they all come from one source, in which case
the conflict names just that source; for two sources adding a value at the
same location on the same target, exactly one conflict is emitted naming both
sources in order. -/
theorem patch_collision_groups
    (m1 m2 : ModInfo) (t x : String) (v1 v2 : JVal) (hne : m1 ≠ m2) :
    ((detectPatchCollisionsData
        { globalPatches := [collPatch "p1" m1 0 t x v1, collPatch "p2" m2 1 t x v2] }).conflicts.map
          (fun c => (c.ctype, c.severity, c.mods)))
      = [(ConflictType.patch_collision, Severity.warning, [m1, m2])]
    ∧ ((detectPatchCollisionsData
        { globalPatches := [collPatch "p1" m1 0 t x v1, collPatch "p2" m1 1 t x v2] }).conflicts.map
          (fun c => (c.ctype, c.severity, c.mods)))
      = [(ConflictType.patch_collision, Severity.warning, [m1])] := by
  constructor
  · simp [detectPatchCollisionsData, groupPatches, groupUpsert, jsUniq,
      collPatch, opName, Ne.symm hne]
  · simp [detectPatchCollisionsData, groupPatches, groupUpsert, jsUniq,
      collPatch, opName]

def c4Mod1 : ModInfo := { packageId := "c1", name := "CollOne", loadOrder := 0 }
def c4Mod2 : ModInfo := { packageId := "c2", name := "CollTwo", loadOrder := 1 }

theorem patch_collision_groups_witness :
    c4Mod1 ≠ c4Mod2
    ∧ (((detectPatchCollisionsData
        { globalPatches := [collPatch "p1" c4Mod1 0 "T" "T/comps" (JVal.str "a"),
                            collPatch "p2" c4Mod2 1 "T" "T/comps" (JVal.str "b")] }).conflicts.map
          (fun c => (c.ctype, c.severity, c.mods)))
      = [(ConflictType.patch_collision, Severity.warning, [c4Mod1, c4Mod2])]
    ∧ ((detectPatchCollisionsData
        { globalPatches := [collPatch "p1" c4Mod1 0 "T" "T/comps" (JVal.str "a"),
                            collPatch "p2" c4Mod1 1 "T" "T/comps" (JVal.str "b")] }).conflicts.map
          (fun c => (c.ctype, c.severity, c.mods)))
      = [(ConflictType.patch_collision, Severity.warning, [c4Mod1])]) :=
  ⟨by decide,
   patch_collision_groups c4Mod1 c4Mod2 "T" "T/comps" (JVal.str "a") (JVal.str "b") (by decide)⟩
